import Mathlib

/-!
Shallow embedding of the TDB2TT MEX function from
src/Coordinate Systems/Time/TDB2TT.c.

The C file is a thin wrapper around external library routines (the SOFA
time-standard routines, the MATLAB getEOP lookup, and the libm sqrt/atan2 routines).
Those external routines are modelled as fields of an environment record
Env: the wrapper calls them as black boxes, so the embedding is
parameterized over their behaviour.  C doubles are modelled as exact
rationals; MATLAB mxArray arguments are modelled as MatArg records
(dimensions plus a flat data list).  Because the C code mutates the
clock-location array of the caller in place (xyzClock[i] /= 1000 on the data
pointer of prhs[3]), the embedding returns the final state of the prhs
list alongside the outcome.
-/

namespace TDB2TT

/-- Environment of external routines linked into the MEX file.  The four
SOFA date-conversion routines return an int status together with their two
output doubles; iauDtdb returns the TDB-TT difference; getEOP returns four
values of which the fourth is TT-UT1; sqRoot and atan2 model the libm sqrt
and atan2 as called by the wrapper. -/
structure Env where
  iauTtut1 : ℚ → ℚ → ℚ → Int × ℚ × ℚ
  iauDtdb : ℚ → ℚ → ℚ → ℚ → ℚ → ℚ → ℚ
  iauTdbtt : ℚ → ℚ → ℚ → Int × ℚ × ℚ
  iauTttai : ℚ → ℚ → Int × ℚ × ℚ
  iauTaiutc : ℚ → ℚ → Int × ℚ × ℚ
  getEOP : ℚ → ℚ → ℚ × ℚ × ℚ × ℚ
  sqRoot : ℚ → ℚ
  atan2 : ℚ → ℚ → ℚ

/-- A MATLAB mxArray of doubles: m rows, n columns, column-major data. -/
structure MatArg where
  m : Nat
  n : Nat
  data : List ℚ
deriving DecidableEq

/-- mxIsEmpty: an array is empty when one of its dimensions is zero. -/
def MatArg.isEmpty (a : MatArg) : Bool := a.m == 0 || a.n == 0

/-- getDoubleFromMatlab from MexValidation.h: read the scalar double. -/
def getDoubleFromMatlab (a : MatArg) : ℚ := a.data.headD 0

/-- Placeholder array used when indexing past the end of prhs (such an
index is never dereferenced on a path the C code takes). -/
def dummyMat : MatArg := ⟨0, 0, []⟩

/-- Result of a MEX call: either a fatal mexErrMsgTxt abort with its
message, or the assigned outputs: plhs[0] always, plhs[1] iff nlhs > 1. -/
inductive Outcome where
  | fatal (msg : String)
  | ok (TT1 : ℚ) (TT2 : Option ℚ)
deriving DecidableEq

/-- Full observable result of one MEX call: the outcome, the warnings
printed by mexWarnMsgTxt in order, and the final state of the input arrays of the caller (the C code mutates prhs[3] in place). -/
structure RunResult where
  outcome : Outcome
  warnings : List String
  prhsFinal : List MatArg
deriving DecidableEq

/-- getDeltaTFromEOP from TDB2TT.c: convert TT to TAI (iauTttai), TAI to
UTC (iauTaiutc), look up the Earth-orientation parameters with getEOP at
that UTC date, and return the fourth value (TT-UT1).  A nonzero iauTttai
status or a -1 iauTaiutc status is fatal; a +1 iauTaiutc status only
warns.  Returns the warnings emitted together with the result. -/
def getDeltaTFromEOP (env : Env) (TT1 TT2 : ℚ) :
    List String × Except String ℚ :=
  let (r1, A1, A2) := env.iauTttai TT1 TT2
  if r1 ≠ 0 then ([], .error "An error occurred computing TAI.")
  else
    let (r2, U1, U2) := env.iauTaiutc A1 A2
    if r2 = -1 then ([], .error "Unacceptable date entered")
    else
      let ws := if r2 = 1 then ["Dubious Date entered."] else []
      (ws, .ok (env.getEOP U1 U2).2.2.2)

/-- The UT1Frac computation from the loop body in TDB2TT.c:
UT1Frac = (Jul1UT1 - floor(Jul1UT1)) + (Jul2UT1 - floor(Jul2UT1));
UT1Frac = UT1Frac - floor(UT1Frac). -/
def ut1FracOf (Jul1UT1 Jul2UT1 : ℚ) : ℚ :=
  let f := (Jul1UT1 - (⌊Jul1UT1⌋ : ℚ)) + (Jul2UT1 - (⌊Jul2UT1⌋ : ℚ))
  f - (⌊f⌋ : ℚ)

/-- One pass of the for loop in TDB2TT.c (curIter fixed): optionally
refresh deltaTTUT1 from getDeltaTFromEOP, convert the current TT estimate
to UT1 with iauTtut1 (status -1 fatal, status 1 warns), extract the UT1
day fraction, compute deltaT = iauDtdb(TDB1,TDB2,UT1Frac,elon,u,v), and
convert TDB to TT with iauTdbtt (nonzero status fatal).  Returns the
warnings of this pass and either the fatal message or the new (TT1,TT2). -/
def iterStep (env : Env) (TDB1 TDB2 : ℚ) (iterateDeltaT : Bool)
    (deltaTTUT1 : ℚ) (elon u v : ℚ) (TT1 TT2 : ℚ) :
    List String × Except String (ℚ × ℚ) :=
  match (if iterateDeltaT then getDeltaTFromEOP env TT1 TT2
         else ([], .ok deltaTTUT1)) with
  | (ws1, .error msg) => (ws1, .error msg)
  | (ws1, .ok dT) =>
    let (r, Jul1UT1, Jul2UT1) := env.iauTtut1 TT1 TT2 dT
    if r = -1 then (ws1, .error "Unacceptable date provided.")
    else
      let ws2 := ws1 ++ (if r = 1 then ["Dubious year provided\n"] else [])
      let UT1Frac := ut1FracOf Jul1UT1 Jul2UT1
      let deltaT := env.iauDtdb TDB1 TDB2 UT1Frac elon u v
      let (r2, TT1n, TT2n) := env.iauTdbtt TDB1 TDB2 deltaT
      if r2 ≠ 0 then
        (ws2, .error "An error occured during an intermediate conversion to TDB.\n")
      else (ws2, .ok (TT1n, TT2n))

/-- The for loop of TDB2TT.c, n passes of iterStep threading (TT1,TT2) and
accumulating warnings; a fatal pass aborts the loop with its message. -/
def runIterations (env : Env) (TDB1 TDB2 : ℚ) (iterateDeltaT : Bool)
    (deltaTTUT1 elon u v : ℚ) :
    Nat → ℚ × ℚ → List String → List String × Except String (ℚ × ℚ)
  | 0, st, ws => (ws, .ok st)
  | n+1, st, ws =>
    match iterStep env TDB1 TDB2 iterateDeltaT deltaTTUT1 elon u v st.1 st.2 with
    | (ws1, .error msg) => (ws ++ ws1, .error msg)
    | (ws1, .ok st1) =>
      runIterations env TDB1 TDB2 iterateDeltaT deltaTTUT1 elon u v n st1 (ws ++ ws1)

/-- Processing of a supplied, non-empty clockLoc argument in TDB2TT.c:
reject anything that is not 3x1, otherwise divide each stored component by
1000 in place and return the mutated array together with
u = sqrt(x*x + y*y), v = z, elon = atan2(y, x) computed on the scaled
(kilometer) values. -/
def clockSetup (env : Env) (arg : MatArg) :
    Except String (MatArg × ℚ × ℚ × ℚ) :=
  if arg.m ≠ 3 ∨ arg.n ≠ 1 then
    .error "The dimensionality of the clock location is incorrect."
  else
    let scaled := arg.data.map (fun q => q / 1000)
    let x := scaled.getD 0 0
    let y := scaled.getD 1 0
    let z := scaled.getD 2 0
    .ok (⟨arg.m, arg.n, scaled⟩, env.sqRoot (x * x + y * y), z, env.atan2 y x)

/-- The tail of mexFunction after argument processing: run the loop twice
starting from the TT = TDB seed and assign plhs[0] (and plhs[1] when
nlhs > 1) from the final TT estimate. -/
def finishRun (env : Env) (nlhs : Nat) (TDB1 TDB2 : ℚ) (iterateDeltaT : Bool)
    (deltaTTUT1 elon u v : ℚ) (prhsFinal : List MatArg) : RunResult :=
  match runIterations env TDB1 TDB2 iterateDeltaT deltaTTUT1 elon u v 2
      (TDB1, TDB2) [] with
  | (ws, .error msg) => ⟨.fatal msg, ws, prhsFinal⟩
  | (ws, .ok st) =>
    ⟨.ok st.1 (if 1 < nlhs then some st.2 else none), ws, prhsFinal⟩

/-- TDB1 = getDoubleFromMatlab(prhs[0]). -/
def parsedTDB1 (prhs : List MatArg) : ℚ :=
  getDoubleFromMatlab (prhs.getD 0 dummyMat)

/-- TDB2 = getDoubleFromMatlab(prhs[1]). -/
def parsedTDB2 (prhs : List MatArg) : ℚ :=
  getDoubleFromMatlab (prhs.getD 1 dummyMat)

/-- The condition nrhs > 2 && !mxIsEmpty(prhs[2]) under which the supplied
deltaTTUT1 is used (iterateDeltaT = false). -/
def deltaSupplied (prhs : List MatArg) : Bool :=
  decide (2 < prhs.length) && !(prhs.getD 2 dummyMat).isEmpty

/-- The initial value of the deltaTTUT1 variable: the parsed third
argument when supplied, otherwise 0. -/
def parsedDeltaTTUT1 (prhs : List MatArg) : ℚ :=
  if deltaSupplied prhs then getDoubleFromMatlab (prhs.getD 2 dummyMat) else 0

/-- mexFunction from TDB2TT.c.  nlhs is the requested output count, prhs
the list of input arrays (nrhs = prhs.length).  Checks the argument
counts, parses TDB1, TDB2 and the optional deltaTTUT1, processes the
optional clock location (mutating prhs[3] in place), and runs the
two-pass refinement loop. -/
def mexFunction (env : Env) (nlhs : Nat) (prhs : List MatArg) : RunResult :=
  if prhs.length < 2 ∨ prhs.length > 4 then
    ⟨.fatal "Wrong number of inputs.", [], prhs⟩
  else if nlhs > 2 then ⟨.fatal "Wrong number of outputs.", [], prhs⟩
  else if 3 < prhs.length ∧ (prhs.getD 3 dummyMat).isEmpty = false then
    match clockSetup env (prhs.getD 3 dummyMat) with
    | .error msg => ⟨.fatal msg, [], prhs⟩
    | .ok (scaled, u, v, elon) =>
      finishRun env nlhs (parsedTDB1 prhs) (parsedTDB2 prhs)
        (!deltaSupplied prhs) (parsedDeltaTTUT1 prhs) elon u v
        (prhs.set 3 scaled)
  else
    finishRun env nlhs (parsedTDB1 prhs) (parsedTDB2 prhs)
      (!deltaSupplied prhs) (parsedDeltaTTUT1 prhs) 0 0 0 prhs

/-- Spec-side rendering of one refinement iteration, following the words
of the specification: optionally look up the TT-UT1 offset from the
current TT estimate, convert the current TT estimate to UT1 with
iauTtut1 (unacceptable date fatal, dubious year a warning), take the
fractional-day part of the full UT1 date (written here as Int.fract of
the summed date, not as the two-floor computation of the code), compute the
TDB-TT correction with iauDtdb from the original TDB date, the UT1
fraction and the observer cylindrical coordinates, and apply iauTdbtt
to the original TDB date (nonzero status fatal). -/
def specRefine (env : Env) (TDB1 TDB2 : ℚ) (lookup : Bool) (offset : ℚ)
    (elon u v : ℚ) (TT : ℚ × ℚ) : List String × Except String (ℚ × ℚ) :=
  match (if lookup then getDeltaTFromEOP env TT.1 TT.2
         else ([], .ok offset)) with
  | (ws1, .error msg) => (ws1, .error msg)
  | (ws1, .ok dT) =>
    let (r, Jul1UT1, Jul2UT1) := env.iauTtut1 TT.1 TT.2 dT
    if r = -1 then (ws1, .error "Unacceptable date provided.")
    else
      let ws2 := ws1 ++ (if r = 1 then ["Dubious year provided\n"] else [])
      let UT1Frac := Int.fract (Jul1UT1 + Jul2UT1)
      let (r2, TT1n, TT2n) :=
        env.iauTdbtt TDB1 TDB2 (env.iauDtdb TDB1 TDB2 UT1Frac elon u v)
      if r2 ≠ 0 then
        (ws2, .error "An error occured during an intermediate conversion to TDB.\n")
      else (ws2, .ok (TT1n, TT2n))

/-- Spec-side rendering of the whole refinement: seed the TT estimate
with the TDB input, apply specRefine exactly twice (aborting on a fatal
pass), and return the estimate after the second pass. -/
def specTwoIter (env : Env) (TDB1 TDB2 : ℚ) (lookup : Bool) (offset : ℚ)
    (elon u v : ℚ) : List String × Except String (ℚ × ℚ) :=
  match specRefine env TDB1 TDB2 lookup offset elon u v (TDB1, TDB2) with
  | (w1, .error msg) => (w1, .error msg)
  | (w1, .ok st1) =>
    match specRefine env TDB1 TDB2 lookup offset elon u v st1 with
    | (w2, .error msg) => (w1 ++ w2, .error msg)
    | (w2, .ok st2) => (w1 ++ w2, .ok st2)

/-- Modelled from the spec: the TDB-to-TT routine of the external standards library
conversion given a correction (the routine the wrapper calls as
iauTdbtt, which is not part of this repository).  Per the library
contract it subtracts the correction dtr (seconds, = TDB-TT) from the
second date component as a fraction of an 86400-second day and always
reports success. -/
def iauTdbttModel (tdb1 tdb2 dtr : ℚ) : Int × ℚ × ℚ :=
  (0, tdb1, tdb2 - dtr / 86400)

/-- Modelled from the spec: the inverse library routine (TT to TDB given
a correction dtr = TDB-TT, called iauTttdb in the library, not part of
this repository): adds the correction back onto the second date
component and always reports success. -/
def iauTttdbModel (tt1 tt2 dtr : ℚ) : Int × ℚ × ℚ :=
  (0, tt1, tt2 + dtr / 86400)

/-- A concrete environment in which every external routine succeeds and
returns zeros (iauTdbtt echoes the input date).  Used to instantiate
universally quantified theorems at a computable point. -/
def trivialEnv : Env where
  iauTtut1 := fun _ _ _ => (0, 0, 0)
  iauDtdb := fun _ _ _ _ _ _ => 0
  iauTdbtt := fun a b _ => (0, a, b)
  iauTttai := fun a b => (0, a, b)
  iauTaiutc := fun a b => (0, a, b)
  getEOP := fun _ _ => (0, 0, 0, 0)
  sqRoot := fun _ => 0
  atan2 := fun _ _ => 0

/-- Spec-side rendering of the tail of the call: run the two spec-side
refinement passes and package the outputs exactly as finishRun does. -/
def specFinish (env : Env) (nlhs : Nat) (TDB1 TDB2 : ℚ) (lookup : Bool)
    (offset elon u v : ℚ) (prhsFinal : List MatArg) : RunResult :=
  match specTwoIter env TDB1 TDB2 lookup offset elon u v with
  | (ws, .error msg) => ⟨.fatal msg, ws, prhsFinal⟩
  | (ws, .ok st) =>
    ⟨.ok st.1 (if 1 < nlhs then some st.2 else none), ws, prhsFinal⟩

/-- The two-floor fractional-part computation of the code agrees with the
mathematical fractional part of the summed date. -/
lemma ut1FracOf_eq_fract (a b : ℚ) : ut1FracOf a b = Int.fract (a + b) := by
  have hf : (a - (⌊a⌋ : ℚ)) + (b - (⌊b⌋ : ℚ)) = (a + b) - ((⌊a⌋ + ⌊b⌋ : ℤ) : ℚ) := by
    push_cast; ring
  unfold ut1FracOf
  rw [hf, Int.self_sub_floor, Int.fract_sub_int]

/-- Each code-side loop pass equals the spec-side refinement pass. -/
lemma iterStep_eq_spec (env : Env) (TDB1 TDB2 : ℚ) (itD : Bool)
    (dT elon u v TT1 TT2 : ℚ) :
    iterStep env TDB1 TDB2 itD dT elon u v TT1 TT2 =
      specRefine env TDB1 TDB2 itD dT elon u v (TT1, TT2) := by
  unfold iterStep specRefine
  simp only [ut1FracOf_eq_fract]

/-- Unrolling of the two-pass loop. -/
lemma runIterations_two (env : Env) (TDB1 TDB2 : ℚ) (itD : Bool)
    (dT elon u v : ℚ) (st : ℚ × ℚ) (ws : List String) :
    runIterations env TDB1 TDB2 itD dT elon u v 2 st ws =
      (match iterStep env TDB1 TDB2 itD dT elon u v st.1 st.2 with
       | (ws1, .error msg) => (ws ++ ws1, .error msg)
       | (ws1, .ok st1) =>
         match iterStep env TDB1 TDB2 itD dT elon u v st1.1 st1.2 with
         | (ws2, .error msg) => (ws ++ ws1 ++ ws2, .error msg)
         | (ws2, .ok st2) => (ws ++ ws1 ++ ws2, .ok st2)) := by
  have s1 : runIterations env TDB1 TDB2 itD dT elon u v 2 st ws =
      (match iterStep env TDB1 TDB2 itD dT elon u v st.1 st.2 with
       | (ws1, .error msg) => (ws ++ ws1, .error msg)
       | (ws1, .ok st1) =>
         runIterations env TDB1 TDB2 itD dT elon u v 1 st1 (ws ++ ws1)) := rfl
  rw [s1]
  rcases h1 : iterStep env TDB1 TDB2 itD dT elon u v st.1 st.2 with ⟨ws1, e1⟩
  cases e1 with
  | error msg => rfl
  | ok st1 =>
    have s2 : runIterations env TDB1 TDB2 itD dT elon u v 1 st1 (ws ++ ws1) =
        (match iterStep env TDB1 TDB2 itD dT elon u v st1.1 st1.2 with
         | (ws2, .error msg) => (ws ++ ws1 ++ ws2, .error msg)
         | (ws2, .ok st2) => (ws ++ ws1 ++ ws2, .ok st2)) := by
      have s3 : runIterations env TDB1 TDB2 itD dT elon u v 1 st1 (ws ++ ws1) =
          (match iterStep env TDB1 TDB2 itD dT elon u v st1.1 st1.2 with
           | (ws2, .error msg) => (ws ++ ws1 ++ ws2, .error msg)
           | (ws2, .ok st2) =>
             runIterations env TDB1 TDB2 itD dT elon u v 0 st2 (ws ++ ws1 ++ ws2)) := rfl
      rw [s3]
      rcases h2 : iterStep env TDB1 TDB2 itD dT elon u v st1.1 st1.2 with ⟨ws2, e2⟩
      cases e2 <;> rfl
    simp only [s2]

/-- The code-side tail equals the spec-side tail. -/
lemma finishRun_eq_specFinish (env : Env) (nlhs : Nat) (TDB1 TDB2 : ℚ)
    (itD : Bool) (dT elon u v : ℚ) (pf : List MatArg) :
    finishRun env nlhs TDB1 TDB2 itD dT elon u v pf =
      specFinish env nlhs TDB1 TDB2 itD dT elon u v pf := by
  unfold finishRun specFinish specTwoIter
  rw [runIterations_two]
  simp only [iterStep_eq_spec]
  rcases h1 : specRefine env TDB1 TDB2 itD dT elon u v (TDB1, TDB2) with ⟨w1, e1⟩
  cases e1 with
  | error msg => rfl
  | ok st1 =>
    rcases h2 : specRefine env TDB1 TDB2 itD dT elon u v (st1.1, st1.2) with ⟨w2, e2⟩
    have hst : specRefine env TDB1 TDB2 itD dT elon u v st1 = (w2, e2) := h2
    simp only [hst]
    cases e2 <;> simp

/-- C6: For every pair of UT1 Julian date components, the extracted
fractional-day value, computed as frac(Jul1UT1) + frac(Jul2UT1) followed
by a further subtraction of its floor, equals the fractional part of the
full date Jul1UT1 + Jul2UT1 and lies in the interval [0, 1) (exact
arithmetic). -/
theorem ut1Frac_eq_fract_and_mem_Ico (a b : ℚ) :
    ut1FracOf a b = Int.fract (a + b) ∧
    0 ≤ ut1FracOf a b ∧ ut1FracOf a b < 1 := by
  refine ⟨ut1FracOf_eq_fract a b, ?_, ?_⟩ <;> rw [ut1FracOf_eq_fract]
  · exact Int.fract_nonneg _
  · exact Int.fract_lt_one _

/-- C9: A call with fewer than 2 or more than 4 inputs, or with more than
2 requested outputs, aborts with a usage error before any input value is
read or any computation is performed: the result is a fatal message that
depends only on the argument counts (the same for any input values of the
same count and for any environment of external routines), with no
warnings and no mutation of the inputs. -/
theorem usage_error_before_computation (env env2 : Env) (nlhs : Nat)
    (prhs : List MatArg)
    (h : prhs.length < 2 ∨ prhs.length > 4 ∨ nlhs > 2) :
    ∃ msg, ∀ prhs2 : List MatArg, prhs2.length = prhs.length →
      mexFunction env nlhs prhs2 = ⟨.fatal msg, [], prhs2⟩ ∧
      mexFunction env2 nlhs prhs2 = ⟨.fatal msg, [], prhs2⟩ := by
  by_cases hlen : prhs.length < 2 ∨ prhs.length > 4
  · refine ⟨"Wrong number of inputs.", fun prhs2 h2 => ?_⟩
    have hc : prhs2.length < 2 ∨ prhs2.length > 4 := by rw [h2]; exact hlen
    constructor <;> (simp only [mexFunction]; rw [if_pos hc])
  · have hnl : nlhs > 2 := by
      rcases h with h | h | h
      · exact absurd (Or.inl h) hlen
      · exact absurd (Or.inr h) hlen
      · exact h
    refine ⟨"Wrong number of outputs.", fun prhs2 h2 => ?_⟩
    have hc : ¬(prhs2.length < 2 ∨ prhs2.length > 4) := by rw [h2]; exact hlen
    constructor <;> (simp only [mexFunction]; rw [if_neg hc, if_pos hnl])

/-- Witness for C9 at a concrete input: one input argument is a usage
error, identically across environments. -/
theorem usage_error_before_computation_witness :
    ∃ msg, ∀ prhs2 : List MatArg, prhs2.length = [dummyMat].length →
      mexFunction trivialEnv 0 prhs2 = ⟨.fatal msg, [], prhs2⟩ ∧
      mexFunction { trivialEnv with getEOP := (fun _ _ => (1, 2, 3, 4)) } 0 prhs2 =
        ⟨.fatal msg, [], prhs2⟩ :=
  usage_error_before_computation trivialEnv
    { trivialEnv with getEOP := (fun _ _ => (1, 2, 3, 4)) } 0 [dummyMat]
    (by decide)

/-- C2: When a non-empty deltaTTUT1 argument is supplied, the result is
independent of the Earth-orientation data source: changing the getEOP
lookup (and the TT-to-TAI and TAI-to-UTC routines that feed it, used
nowhere else) does not change any part of the result, because the lookup
helper is never invoked. -/
theorem supplied_offset_independent_of_EOP (env : Env)
    (g : ℚ → ℚ → ℚ × ℚ × ℚ × ℚ) (f1 f2 : ℚ → ℚ → Int × ℚ × ℚ)
    (nlhs : Nat) (prhs : List MatArg)
    (hsup : 2 < prhs.length)
    (hne : (prhs.getD 2 dummyMat).isEmpty = false) :
    mexFunction { env with getEOP := g, iauTttai := f1, iauTaiutc := f2 } nlhs prhs =
      mexFunction env nlhs prhs := by
  by_cases h1 : prhs.length < 2 ∨ prhs.length > 4
  · simp only [mexFunction]; rw [if_pos h1, if_pos h1]
  · by_cases h2 : nlhs > 2
    · simp only [mexFunction]
      rw [if_neg h1, if_neg h1, if_pos h2, if_pos h2]
    · have hs : deltaSupplied prhs = true := by
        unfold deltaSupplied; rw [hne]; simp [hsup]
      simp only [mexFunction]
      rw [if_neg h1, if_neg h1, if_neg h2, if_neg h2, hs]
      rfl

/-- Witness for C2 at a concrete input: with deltaTTUT1 = 7 supplied, an
environment whose lookup routines would all fail or return garbage gives
the same result as the benign environment. -/
theorem supplied_offset_independent_of_EOP_witness :
    mexFunction
        { trivialEnv with
          getEOP := (fun _ _ => (1, 2, 3, 4)),
          iauTttai := (fun _ _ => (-1, 0, 0)),
          iauTaiutc := (fun _ _ => (-1, 0, 0)) }
        1 [⟨1, 1, [10]⟩, ⟨1, 1, [5]⟩, ⟨1, 1, [7]⟩] =
      mexFunction trivialEnv 1 [⟨1, 1, [10]⟩, ⟨1, 1, [5]⟩, ⟨1, 1, [7]⟩] :=
  supplied_offset_independent_of_EOP trivialEnv _ _ _ 1 _ (by decide) (by decide)

/-- finishRun never touches the array state it is handed. -/
lemma finishRun_prhsFinal (env : Env) (nlhs : Nat) (TDB1 TDB2 : ℚ)
    (itD : Bool) (dT elon u v : ℚ) (pf : List MatArg) :
    (finishRun env nlhs TDB1 TDB2 itD dT elon u v pf).prhsFinal = pf := by
  unfold finishRun
  split <;> rfl

/-- Outcome analysis of finishRun: a fatal outcome, or outputs taken from
a successful two-pass loop seeded at (TDB1, TDB2). -/
lemma finishRun_cases (env : Env) (nlhs : Nat) (TDB1 TDB2 : ℚ)
    (itD : Bool) (dT elon u v : ℚ) (pf : List MatArg) :
    (∃ msg, (finishRun env nlhs TDB1 TDB2 itD dT elon u v pf).outcome = .fatal msg) ∨
    (∃ t1 t2 ws,
      runIterations env TDB1 TDB2 itD dT elon u v 2 (TDB1, TDB2) [] =
        (ws, .ok (t1, t2)) ∧
      (finishRun env nlhs TDB1 TDB2 itD dT elon u v pf).outcome =
        .ok t1 (if 1 < nlhs then some t2 else none)) := by
  unfold finishRun
  rcases h : runIterations env TDB1 TDB2 itD dT elon u v 2 (TDB1, TDB2) [] with ⟨ws, e⟩
  cases e with
  | error msg => exact Or.inl ⟨msg, rfl⟩
  | ok st => exact Or.inr ⟨st.1, st.2, ws, rfl, rfl⟩

/-- Evaluation of clockSetup on a well-formed 3x1 argument. -/
lemma clockSetup_eval (env : Env) (x y z : ℚ) :
    clockSetup env ⟨3, 1, [x, y, z]⟩ =
      .ok (⟨3, 1, [x / 1000, y / 1000, z / 1000]⟩,
        env.sqRoot (x / 1000 * (x / 1000) + y / 1000 * (y / 1000)),
        z / 1000, env.atan2 (y / 1000) (x / 1000)) := rfl

/-- C4: Every call either returns a complete TT split date or aborts with
a fatal error: the outputs TT1 (and TT2 exactly when more than one output
is requested) come from a two-iteration loop seeded at the parsed TDB
date that completed without a fatal error; no partial result exists. -/
theorem no_partial_result (env : Env) (nlhs : Nat) (prhs : List MatArg) :
    (∃ msg, (mexFunction env nlhs prhs).outcome = .fatal msg) ∨
    (∃ t1 t2 itD dT elon u v ws,
      runIterations env (parsedTDB1 prhs) (parsedTDB2 prhs) itD dT elon u v 2
        (parsedTDB1 prhs, parsedTDB2 prhs) [] = (ws, .ok (t1, t2)) ∧
      (mexFunction env nlhs prhs).outcome =
        .ok t1 (if 1 < nlhs then some t2 else none)) := by
  simp only [mexFunction]
  by_cases h1 : prhs.length < 2 ∨ prhs.length > 4
  · rw [if_pos h1]; exact Or.inl ⟨_, rfl⟩
  rw [if_neg h1]
  by_cases h2 : nlhs > 2
  · rw [if_pos h2]; exact Or.inl ⟨_, rfl⟩
  rw [if_neg h2]
  by_cases h3 : 3 < prhs.length ∧ (prhs.getD 3 dummyMat).isEmpty = false
  · rw [if_pos h3]
    rcases hcs : clockSetup env (prhs.getD 3 dummyMat) with msg | ⟨scaled, u, v, elon⟩
    · exact Or.inl ⟨msg, rfl⟩
    · rcases finishRun_cases env nlhs (parsedTDB1 prhs) (parsedTDB2 prhs)
          (!deltaSupplied prhs) (parsedDeltaTTUT1 prhs) elon u v
          (prhs.set 3 scaled) with ⟨msg, hm⟩ | ⟨t1, t2, ws, hr, ho⟩
      · exact Or.inl ⟨msg, hm⟩
      · exact Or.inr ⟨t1, t2, _, _, elon, u, v, ws, hr, ho⟩
  · rw [if_neg h3]
    rcases finishRun_cases env nlhs (parsedTDB1 prhs) (parsedTDB2 prhs)
        (!deltaSupplied prhs) (parsedDeltaTTUT1 prhs) 0 0 0 prhs with
      ⟨msg, hm⟩ | ⟨t1, t2, ws, hr, ho⟩
    · exact Or.inl ⟨msg, hm⟩
    · exact Or.inr ⟨t1, t2, _, _, 0, 0, 0, ws, hr, ho⟩

/-- C5: With a supplied 3x1 clock location [x, y, z] (meters), the
converter runs with cylindrical coordinates radius, height and longitude
obtained as sqRoot, third component and atan2 of the components scaled
by 1/1000, and with the scaled array written back in place; with the
argument absent or empty it runs with radius = height = longitude = 0. -/
theorem clock_location_cylindrical (env : Env) (nlhs : Nat)
    (prhs : List MatArg)
    (hl : 2 ≤ prhs.length) (hr : prhs.length ≤ 4) (hn : nlhs ≤ 2) :
    (∀ x y z : ℚ, 3 < prhs.length → prhs.getD 3 dummyMat = ⟨3, 1, [x, y, z]⟩ →
      mexFunction env nlhs prhs =
        finishRun env nlhs (parsedTDB1 prhs) (parsedTDB2 prhs)
          (!deltaSupplied prhs) (parsedDeltaTTUT1 prhs)
          (env.atan2 (y / 1000) (x / 1000))
          (env.sqRoot ((x / 1000) ^ 2 + (y / 1000) ^ 2))
          (z / 1000)
          (prhs.set 3 ⟨3, 1, [x / 1000, y / 1000, z / 1000]⟩)) ∧
    (prhs.length ≤ 3 ∨ (prhs.getD 3 dummyMat).isEmpty = true →
      mexFunction env nlhs prhs =
        finishRun env nlhs (parsedTDB1 prhs) (parsedTDB2 prhs)
          (!deltaSupplied prhs) (parsedDeltaTTUT1 prhs) 0 0 0 prhs) := by
  have h1 : ¬(prhs.length < 2 ∨ prhs.length > 4) := by omega
  have h2 : ¬nlhs > 2 := by omega
  constructor
  · intro x y z hlt harg
    have hc : 3 < prhs.length ∧ (prhs.getD 3 dummyMat).isEmpty = false :=
      ⟨hlt, by rw [harg]; rfl⟩
    simp only [mexFunction]
    rw [if_neg h1, if_neg h2, if_pos hc, harg, clockSetup_eval]
    simp only [pow_two]
  · intro hno
    have hc : ¬(3 < prhs.length ∧ (prhs.getD 3 dummyMat).isEmpty = false) := by
      rcases hno with hno | hno
      · intro hc; omega
      · intro hc; rw [hno] at hc; exact absurd hc.2 (by simp)
    simp only [mexFunction]
    rw [if_neg h1, if_neg h2, if_neg hc]

/-- Witness for C5 at a concrete input: a clock at (2000, 3000, 4000)
meters yields the scaled cylindrical parameters. -/
theorem clock_location_cylindrical_witness :
    mexFunction trivialEnv 1
        [⟨1, 1, [10]⟩, ⟨1, 1, [5]⟩, ⟨0, 0, []⟩, ⟨3, 1, [2000, 3000, 4000]⟩] =
      finishRun trivialEnv 1
        (parsedTDB1 [⟨1, 1, [10]⟩, ⟨1, 1, [5]⟩, ⟨0, 0, []⟩, ⟨3, 1, [2000, 3000, 4000]⟩])
        (parsedTDB2 [⟨1, 1, [10]⟩, ⟨1, 1, [5]⟩, ⟨0, 0, []⟩, ⟨3, 1, [2000, 3000, 4000]⟩])
        (!deltaSupplied [⟨1, 1, [10]⟩, ⟨1, 1, [5]⟩, ⟨0, 0, []⟩, ⟨3, 1, [2000, 3000, 4000]⟩])
        (parsedDeltaTTUT1 [⟨1, 1, [10]⟩, ⟨1, 1, [5]⟩, ⟨0, 0, []⟩, ⟨3, 1, [2000, 3000, 4000]⟩])
        (trivialEnv.atan2 (3000 / 1000) (2000 / 1000))
        (trivialEnv.sqRoot ((2000 / 1000) ^ 2 + (3000 / 1000) ^ 2))
        (4000 / 1000)
        ([⟨1, 1, [10]⟩, ⟨1, 1, [5]⟩, ⟨0, 0, []⟩, ⟨3, 1, [2000, 3000, 4000]⟩].set 3
          ⟨3, 1, [2000 / 1000, 3000 / 1000, 4000 / 1000]⟩) :=
  (clock_location_cylindrical trivialEnv 1
      [⟨1, 1, [10]⟩, ⟨1, 1, [5]⟩, ⟨0, 0, []⟩, ⟨3, 1, [2000, 3000, 4000]⟩]
      (by decide) (by decide) (by decide)).1
    2000 3000 4000 (by decide) (by decide)

/-- C10: With a 3x1 clockLocation argument supplied and valid counts, the
call mutates the array of the caller in place: the final state of prhs has
prhs[3] replaced by its components divided by 1000 (this holds whatever
the outcome, including runs that abort inside the iteration loop), and
unless all three components are zero the inputs are not left unchanged. -/
theorem clock_array_mutated_in_place (env : Env) (nlhs : Nat)
    (prhs : List MatArg) (x y z : ℚ)
    (hlen : prhs.length = 4) (hn : nlhs ≤ 2)
    (harg : prhs.getD 3 dummyMat = ⟨3, 1, [x, y, z]⟩) :
    (mexFunction env nlhs prhs).prhsFinal =
      prhs.set 3 ⟨3, 1, [x / 1000, y / 1000, z / 1000]⟩ ∧
    (¬(x = 0 ∧ y = 0 ∧ z = 0) → (mexFunction env nlhs prhs).prhsFinal ≠ prhs) := by
  have h1 : ¬(prhs.length < 2 ∨ prhs.length > 4) := by omega
  have h2 : ¬nlhs > 2 := by omega
  have hc : 3 < prhs.length ∧ (prhs.getD 3 dummyMat).isEmpty = false :=
    ⟨by omega, by rw [harg]; rfl⟩
  have hmain : (mexFunction env nlhs prhs).prhsFinal =
      prhs.set 3 ⟨3, 1, [x / 1000, y / 1000, z / 1000]⟩ := by
    simp only [mexFunction]
    rw [if_neg h1, if_neg h2, if_pos hc, harg, clockSetup_eval]
    exact finishRun_prhsFinal _ _ _ _ _ _ _ _ _ _
  refine ⟨hmain, fun hnz heq => ?_⟩
  rw [hmain] at heq
  have hget : (prhs.set 3 (⟨3, 1, [x / 1000, y / 1000, z / 1000]⟩ : MatArg)).getD 3
      dummyMat = ⟨3, 1, [x / 1000, y / 1000, z / 1000]⟩ := by
    rw [List.getD_eq_getElem?_getD, List.getElem?_set_self (by omega)]
    rfl
  rw [heq, harg] at hget
  have hx : x = x / 1000 := by
    have := congrArg MatArg.data hget
    injection this with hx0 _
  have hy : y = y / 1000 := by
    have := congrArg MatArg.data hget
    injection this with _ htl
    injection htl with hy0 _
  have hz : z = z / 1000 := by
    have := congrArg MatArg.data hget
    injection this with _ htl
    injection htl with _ htl2
    injection htl2 with hz0 _
  exact hnz ⟨by linarith, by linarith, by linarith⟩

/-- Witness for C10 at a concrete input: even though the environment makes
the loop abort fatally, the clock array of the caller has been scaled. -/
theorem clock_array_mutated_in_place_witness :
    (mexFunction
        { trivialEnv with iauTdbtt := (fun _ _ _ => (1, 0, 0)) } 1
        [⟨1, 1, [10]⟩, ⟨1, 1, [5]⟩, ⟨0, 0, []⟩, ⟨3, 1, [2000, 3000, 4000]⟩]).prhsFinal =
      [⟨1, 1, [10]⟩, ⟨1, 1, [5]⟩, ⟨0, 0, []⟩, ⟨3, 1, [2000, 3000, 4000]⟩].set 3
        ⟨3, 1, [2000 / 1000, 3000 / 1000, 4000 / 1000]⟩ :=
  (clock_array_mutated_in_place
      { trivialEnv with iauTdbtt := (fun _ _ _ => (1, 0, 0)) } 1
      [⟨1, 1, [10]⟩, ⟨1, 1, [5]⟩, ⟨0, 0, []⟩, ⟨3, 1, [2000, 3000, 4000]⟩]
      2000 3000 4000 (by decide) (by decide) (by decide)).1

/-- C1: For every call with valid argument counts, the converter follows
the spec-side procedure: it initializes its TT estimate to the input TDB
split date and performs exactly two refinement iterations, each of which
(optionally) looks up the TT-UT1 offset from the current TT estimate,
converts the current TT estimate to UT1 with iauTtut1, extracts the
fractional-day part of UT1, computes the TDB-TT correction with iauDtdb
from the original TDB date, the UT1 fraction and the observer
cylindrical coordinates, and applies iauTdbtt to the original TDB date;
the TT estimate after the second iteration is what is returned. -/
theorem converter_seeds_TDB_and_refines_twice (env : Env) (nlhs : Nat)
    (prhs : List MatArg)
    (hl : 2 ≤ prhs.length) (hr : prhs.length ≤ 4) (hn : nlhs ≤ 2) :
    mexFunction env nlhs prhs =
      (if 3 < prhs.length ∧ (prhs.getD 3 dummyMat).isEmpty = false then
        match clockSetup env (prhs.getD 3 dummyMat) with
        | .error msg => ⟨.fatal msg, [], prhs⟩
        | .ok (scaled, u, v, elon) =>
          specFinish env nlhs (parsedTDB1 prhs) (parsedTDB2 prhs)
            (!deltaSupplied prhs) (parsedDeltaTTUT1 prhs) elon u v
            (prhs.set 3 scaled)
      else
        specFinish env nlhs (parsedTDB1 prhs) (parsedTDB2 prhs)
          (!deltaSupplied prhs) (parsedDeltaTTUT1 prhs) 0 0 0 prhs) := by
  have h1 : ¬(prhs.length < 2 ∨ prhs.length > 4) := by omega
  have h2 : ¬nlhs > 2 := by omega
  simp only [mexFunction]
  rw [if_neg h1, if_neg h2]
  by_cases h3 : 3 < prhs.length ∧ (prhs.getD 3 dummyMat).isEmpty = false
  · rw [if_pos h3, if_pos h3]
    rcases hcs : clockSetup env (prhs.getD 3 dummyMat) with msg | ⟨scaled, u, v, elon⟩
    · rfl
    · exact finishRun_eq_specFinish env nlhs (parsedTDB1 prhs) (parsedTDB2 prhs)
        (!deltaSupplied prhs) (parsedDeltaTTUT1 prhs) elon u v (prhs.set 3 scaled)
  · rw [if_neg h3, if_neg h3]
    exact finishRun_eq_specFinish env nlhs (parsedTDB1 prhs) (parsedTDB2 prhs)
      (!deltaSupplied prhs) (parsedDeltaTTUT1 prhs) 0 0 0 prhs

/-- Witness for C1 at a concrete input: a plain two-argument call reduces
to the spec-side double refinement seeded at (10, 5). -/
theorem converter_seeds_TDB_and_refines_twice_witness :
    mexFunction trivialEnv 1 [⟨1, 1, [10]⟩, ⟨1, 1, [5]⟩] =
      specFinish trivialEnv 1 10 5 true 0 0 0 0 [⟨1, 1, [10]⟩, ⟨1, 1, [5]⟩] :=
  converter_seeds_TDB_and_refines_twice trivialEnv 1 [⟨1, 1, [10]⟩, ⟨1, 1, [5]⟩]
    (by decide) (by decide) (by decide)

/-- C3: In each iteration of the converter (once the offset for the pass
is fixed): a -1 status from iauTtut1 aborts fatally with the
unacceptable-date message; a +1 status emits the dubious-year warning and
computation continues to a numeric result when the final conversion
succeeds; and a nonzero status from the final iauTdbtt conversion aborts
fatally. -/
theorem iteration_error_semantics (env : Env) (TDB1 TDB2 : ℚ) (itD : Bool)
    (dT elon u v TT1 TT2 : ℚ) (ws0 : List String) (dTeff : ℚ)
    (r : Int) (J1 J2 : ℚ) (r2 : Int) (b1 b2 : ℚ)
    (hlk : (if itD then getDeltaTFromEOP env TT1 TT2 else ([], .ok dT)) =
      (ws0, .ok dTeff))
    (htu : env.iauTtut1 TT1 TT2 dTeff = (r, J1, J2))
    (htd : env.iauTdbtt TDB1 TDB2
        (env.iauDtdb TDB1 TDB2 (ut1FracOf J1 J2) elon u v) = (r2, b1, b2)) :
    (r = -1 →
      iterStep env TDB1 TDB2 itD dT elon u v TT1 TT2 =
        (ws0, .error "Unacceptable date provided.")) ∧
    (r = 1 → r2 = 0 →
      iterStep env TDB1 TDB2 itD dT elon u v TT1 TT2 =
        (ws0 ++ ["Dubious year provided\n"], .ok (b1, b2))) ∧
    (r ≠ -1 → r2 ≠ 0 →
      iterStep env TDB1 TDB2 itD dT elon u v TT1 TT2 =
        (ws0 ++ (if r = 1 then ["Dubious year provided\n"] else []),
          .error "An error occured during an intermediate conversion to TDB.\n")) := by
  unfold iterStep
  simp only [hlk]
  refine ⟨fun h => ?_, fun ha hb => ?_, fun ha hb => ?_⟩
  · subst h
    simp [htu]
  · subst ha
    subst hb
    simp [htu, htd]
  · simp only [htu]
    rw [if_neg ha]
    simp only [htd]
    rw [if_pos hb]

/-- Witness for C3 at a concrete input: a dubious-year status from
iauTtut1 warns and still produces the numeric result. -/
theorem iteration_error_semantics_witness :
    iterStep { trivialEnv with iauTtut1 := (fun _ _ _ => (1, 0, 0)) }
        10 5 false 0 0 0 0 10 5 =
      ([] ++ ["Dubious year provided\n"], .ok (10, 5)) :=
  (iteration_error_semantics
      { trivialEnv with iauTtut1 := (fun _ _ _ => (1, 0, 0)) }
      10 5 false 0 0 0 0 10 5 [] 0 1 0 0 0 10 5 rfl rfl rfl).2.1 rfl rfl

/-- C7: getDeltaTFromEOP converts the TT date to TAI (iauTttai) and TAI
to UTC (iauTaiutc), queries the external getEOP source keyed by that UTC
date, and returns its fourth value (TT-UT1) without further validation;
a nonzero TT-to-TAI status or a -1 TAI-to-UTC status is fatal, while a
+1 TAI-to-UTC status only emits a warning and the lookup proceeds. -/
theorem getDeltaTFromEOP_contract (env : Env) (TT1 TT2 : ℚ)
    (s1 : Int) (A1 A2 : ℚ) (s2 : Int) (U1 U2 : ℚ)
    (h1 : env.iauTttai TT1 TT2 = (s1, A1, A2))
    (h2 : env.iauTaiutc A1 A2 = (s2, U1, U2)) :
    (s1 ≠ 0 → getDeltaTFromEOP env TT1 TT2 =
      ([], .error "An error occurred computing TAI.")) ∧
    (s1 = 0 → s2 = -1 → getDeltaTFromEOP env TT1 TT2 =
      ([], .error "Unacceptable date entered")) ∧
    (s1 = 0 → s2 = 1 → getDeltaTFromEOP env TT1 TT2 =
      (["Dubious Date entered."], .ok (env.getEOP U1 U2).2.2.2)) ∧
    (s1 = 0 → s2 ≠ -1 → s2 ≠ 1 → getDeltaTFromEOP env TT1 TT2 =
      ([], .ok (env.getEOP U1 U2).2.2.2)) := by
  unfold getDeltaTFromEOP
  simp only [h1]
  refine ⟨fun ha => ?_, fun ha hb => ?_, fun ha hb => ?_, fun ha hb hc => ?_⟩
  · rw [if_pos ha]
  · subst ha
    subst hb
    simp [h2]
  · subst ha
    subst hb
    simp [h2]
  · subst ha
    simp only [if_neg (fun hh => hh rfl : ¬(0 : Int) ≠ 0), h2]
    rw [if_neg hb, if_neg hc]

/-- Witness for C7 at a concrete input: with clean statuses the helper
returns the fourth getEOP value with no warnings. -/
theorem getDeltaTFromEOP_contract_witness :
    getDeltaTFromEOP trivialEnv 10 5 = ([], .ok 0) :=
  (getDeltaTFromEOP_contract trivialEnv 10 5 0 10 5 0 10 5 rfl rfl).2.2.2
    rfl (by decide) (by decide)

/-- With the modelled library TDB-to-TT routine, any successful pass
returns (TDB1, TDB2 - d/86400) for some iauDtdb output d. -/
lemma iterStep_ok_shape (env : Env) (TDB1 TDB2 : ℚ) (itD : Bool)
    (dT elon u v TT1 TT2 : ℚ) (hm : env.iauTdbtt = iauTdbttModel)
    (ws : List String) (st : ℚ × ℚ)
    (h : iterStep env TDB1 TDB2 itD dT elon u v TT1 TT2 = (ws, .ok st)) :
    ∃ f, st = (TDB1, TDB2 - env.iauDtdb TDB1 TDB2 f elon u v / 86400) := by
  unfold iterStep at h
  rw [hm] at h
  rcases hlk : (if itD then getDeltaTFromEOP env TT1 TT2 else ([], .ok dT)) with ⟨ws1, e1⟩
  cases e1 with
  | error msg =>
    simp only [hlk] at h
    simp at h
  | ok dTeff =>
    rcases htu : env.iauTtut1 TT1 TT2 dTeff with ⟨r, J1, J2⟩
    simp only [hlk, htu, iauTdbttModel] at h
    by_cases hr : r = -1
    · rw [if_pos hr] at h
      simp at h
    · rw [if_neg hr] at h
      simp at h
      exact ⟨ut1FracOf J1 J2, h.2.symm⟩

/-- With the modelled library TDB-to-TT routine, any successful run of
the loop returns (TDB1, TDB2 - d/86400) for some iauDtdb output d. -/
lemma runIterations_ok_shape (env : Env) (TDB1 TDB2 : ℚ) (itD : Bool)
    (dT elon u v : ℚ) (hm : env.iauTdbtt = iauTdbttModel) :
    ∀ (n : Nat) (st : ℚ × ℚ) (ws ws' : List String) (stF : ℚ × ℚ),
      runIterations env TDB1 TDB2 itD dT elon u v (n + 1) st ws = (ws', .ok stF) →
      ∃ f, stF = (TDB1, TDB2 - env.iauDtdb TDB1 TDB2 f elon u v / 86400) := by
  intro n
  induction n with
  | zero =>
    intro st ws ws' stF h
    have s1 : runIterations env TDB1 TDB2 itD dT elon u v 1 st ws =
        (match iterStep env TDB1 TDB2 itD dT elon u v st.1 st.2 with
         | (ws1, .error msg) => (ws ++ ws1, .error msg)
         | (ws1, .ok st1) =>
           runIterations env TDB1 TDB2 itD dT elon u v 0 st1 (ws ++ ws1)) := rfl
    rw [s1] at h
    rcases hi : iterStep env TDB1 TDB2 itD dT elon u v st.1 st.2 with ⟨ws1, e1⟩
    cases e1 with
    | error msg =>
      simp only [hi] at h
      simp at h
    | ok st1 =>
      simp only [hi] at h
      have h0 : runIterations env TDB1 TDB2 itD dT elon u v 0 st1 (ws ++ ws1) =
          (ws ++ ws1, .ok st1) := rfl
      rw [h0] at h
      rcases iterStep_ok_shape env TDB1 TDB2 itD dT elon u v st.1 st.2 hm ws1 st1 hi
        with ⟨f, hf⟩
      injection h with ha hb
      injection hb with hb
      exact ⟨f, hb ▸ hf⟩
  | succ m ih =>
    intro st ws ws' stF h
    have s1 : runIterations env TDB1 TDB2 itD dT elon u v (m + 1 + 1) st ws =
        (match iterStep env TDB1 TDB2 itD dT elon u v st.1 st.2 with
         | (ws1, .error msg) => (ws ++ ws1, .error msg)
         | (ws1, .ok st1) =>
           runIterations env TDB1 TDB2 itD dT elon u v (m + 1) st1 (ws ++ ws1)) := rfl
    rw [s1] at h
    rcases hi : iterStep env TDB1 TDB2 itD dT elon u v st.1 st.2 with ⟨ws1, e1⟩
    cases e1 with
    | error msg =>
      simp only [hi] at h
      simp at h
    | ok st1 =>
      simp only [hi] at h
      exact ih st1 (ws ++ ws1) ws' stF h

/-- A complete output of finishRun under the modelled library routine has
TT1 equal to TDB1 and TT2 equal to TDB2 minus a correction over 86400. -/
lemma finishRun_out_ok (env : Env) (nlhs : Nat) (T1 T2 : ℚ) (itD : Bool)
    (dT elon u v : ℚ) (pf : List MatArg) (t1 t2 : ℚ)
    (hm : env.iauTdbtt = iauTdbttModel)
    (h : (finishRun env nlhs T1 T2 itD dT elon u v pf).outcome = .ok t1 (some t2)) :
    ∃ f, t1 = T1 ∧ t2 = T2 - env.iauDtdb T1 T2 f elon u v / 86400 := by
  unfold finishRun at h
  rcases hr : runIterations env T1 T2 itD dT elon u v 2 (T1, T2) [] with ⟨ws, e⟩
  cases e with
  | error msg =>
    simp only [hr] at h
    simp at h
  | ok st =>
    simp only [hr] at h
    rcases runIterations_ok_shape env T1 T2 itD dT elon u v hm 1 (T1, T2) [] ws st hr
      with ⟨f, hf⟩
    by_cases hn : 1 < nlhs
    · rw [if_pos hn] at h
      injection h with h1 h2
      injection h2 with h2
      refine ⟨f, ?_, ?_⟩
      · rw [← h1, hf]
      · rw [← h2, hf]
    · rw [if_neg hn] at h
      injection h with h1 h2
      exact Option.noConfusion h2

/-- C8: For every call that completes (in an environment whose TDB-to-TT
routine is the modelled library routine), converting the returned TT
split date back to TDB with the modelled inverse library routine, using
the TDB-TT correction produced by iauDtdb at the original TDB date,
succeeds and reproduces the original TDB split date as a full-date sum
exactly, in particular to within nanosecond tolerance (1/86400000000000
of a day). -/
theorem tdb_tt_roundtrip (env : Env) (nlhs : Nat) (prhs : List MatArg)
    (t1 t2 : ℚ) (hm : env.iauTdbtt = iauTdbttModel)
    (hout : (mexFunction env nlhs prhs).outcome = .ok t1 (some t2)) :
    ∃ d : ℚ,
      (∃ f elon u v,
        d = env.iauDtdb (parsedTDB1 prhs) (parsedTDB2 prhs) f elon u v) ∧
      (iauTttdbModel t1 t2 d).1 = 0 ∧
      (iauTttdbModel t1 t2 d).2.1 + (iauTttdbModel t1 t2 d).2.2 =
        parsedTDB1 prhs + parsedTDB2 prhs ∧
      |(iauTttdbModel t1 t2 d).2.1 + (iauTttdbModel t1 t2 d).2.2 -
          (parsedTDB1 prhs + parsedTDB2 prhs)| ≤ 1 / 86400000000000 := by
  have key : ∃ elon u v f, t1 = parsedTDB1 prhs ∧
      t2 = parsedTDB2 prhs -
        env.iauDtdb (parsedTDB1 prhs) (parsedTDB2 prhs) f elon u v / 86400 := by
    simp only [mexFunction] at hout
    by_cases h1 : prhs.length < 2 ∨ prhs.length > 4
    · rw [if_pos h1] at hout
      simp at hout
    rw [if_neg h1] at hout
    by_cases h2 : nlhs > 2
    · rw [if_pos h2] at hout
      simp at hout
    rw [if_neg h2] at hout
    by_cases h3 : 3 < prhs.length ∧ (prhs.getD 3 dummyMat).isEmpty = false
    · rw [if_pos h3] at hout
      rcases hcs : clockSetup env (prhs.getD 3 dummyMat) with msg | ⟨scaled, u, v, elon⟩
      · simp only [hcs] at hout
        simp at hout
      · simp only [hcs] at hout
        rcases finishRun_out_ok env nlhs (parsedTDB1 prhs) (parsedTDB2 prhs)
            (!deltaSupplied prhs) (parsedDeltaTTUT1 prhs) elon u v (prhs.set 3 scaled)
            t1 t2 hm hout with ⟨f, hf1, hf2⟩
        exact ⟨elon, u, v, f, hf1, hf2⟩
    · rw [if_neg h3] at hout
      rcases finishRun_out_ok env nlhs (parsedTDB1 prhs) (parsedTDB2 prhs)
          (!deltaSupplied prhs) (parsedDeltaTTUT1 prhs) 0 0 0 prhs t1 t2 hm hout
        with ⟨f, hf1, hf2⟩
      exact ⟨0, 0, 0, f, hf1, hf2⟩
  rcases key with ⟨elon, u, v, f, ht1, ht2⟩
  have hs : (iauTttdbModel t1 t2
        (env.iauDtdb (parsedTDB1 prhs) (parsedTDB2 prhs) f elon u v)).2.1 +
      (iauTttdbModel t1 t2
        (env.iauDtdb (parsedTDB1 prhs) (parsedTDB2 prhs) f elon u v)).2.2 =
      parsedTDB1 prhs + parsedTDB2 prhs := by
    simp only [iauTttdbModel]
    rw [ht1, ht2]
    ring
  refine ⟨env.iauDtdb (parsedTDB1 prhs) (parsedTDB2 prhs) f elon u v,
    ⟨f, elon, u, v, rfl⟩, rfl, hs, ?_⟩
  rw [hs, sub_self, abs_zero]
  norm_num

/-- Witness for C8 at a concrete input: a plain call on (10, 5) with the
modelled library routine returns TT = (10, 5), and the inverse conversion
reproduces 10 + 5 exactly. -/
theorem tdb_tt_roundtrip_witness :
    (mexFunction { trivialEnv with iauTdbtt := iauTdbttModel } 2
        [⟨1, 1, [10]⟩, ⟨1, 1, [5]⟩]).outcome = .ok 10 (some 5) ∧
    (∃ d : ℚ,
      (∃ f elon u v,
        d = ({ trivialEnv with iauTdbtt := iauTdbttModel } : Env).iauDtdb
          (parsedTDB1 [⟨1, 1, [10]⟩, ⟨1, 1, [5]⟩])
          (parsedTDB2 [⟨1, 1, [10]⟩, ⟨1, 1, [5]⟩]) f elon u v) ∧
      (iauTttdbModel 10 5 d).1 = 0 ∧
      (iauTttdbModel 10 5 d).2.1 + (iauTttdbModel 10 5 d).2.2 =
        parsedTDB1 [⟨1, 1, [10]⟩, ⟨1, 1, [5]⟩] +
          parsedTDB2 [⟨1, 1, [10]⟩, ⟨1, 1, [5]⟩] ∧
      |(iauTttdbModel 10 5 d).2.1 + (iauTttdbModel 10 5 d).2.2 -
          (parsedTDB1 [⟨1, 1, [10]⟩, ⟨1, 1, [5]⟩] +
            parsedTDB2 [⟨1, 1, [10]⟩, ⟨1, 1, [5]⟩])| ≤ 1 / 86400000000000) :=
  ⟨by
      have h0 : (mexFunction { trivialEnv with iauTdbtt := iauTdbttModel } 2
          [⟨1, 1, [10]⟩, ⟨1, 1, [5]⟩]).outcome = .ok 10 (some (5 - 0 / 86400)) := rfl
      rw [h0]
      simp only [Outcome.ok.injEq, Option.some.injEq]
      norm_num,
    tdb_tt_roundtrip { trivialEnv with iauTdbtt := iauTdbttModel } 2
      [⟨1, 1, [10]⟩, ⟨1, 1, [5]⟩] 10 5 rfl
      (by
        have h0 : (mexFunction { trivialEnv with iauTdbtt := iauTdbttModel } 2
            [⟨1, 1, [10]⟩, ⟨1, 1, [5]⟩]).outcome = .ok 10 (some (5 - 0 / 86400)) := rfl
        rw [h0]
        simp only [Outcome.ok.injEq, Option.some.injEq]
        norm_num)⟩

end TDB2TT
